import Mathlib

/-!
Verification of the V4C extraction engine (src/v4c/extract.py and
src/v4c/utils.py) against its natural-language specification.

The Python code is shallowly embedded: pure helpers become Lean functions;
the effectful pipeline of extract_v4c becomes a function into an effect
trace (file-existence checks, matrix fetches, warnings, the final table
write) paired with an Except result mirroring the Python exception flow.
Machine integers are Int (Python ints are unbounded); Python floor
division (//) is Int.fdiv; contact values are rationals.  External
collaborators (the file system, the cooler matrix accessor, the pandas
readers) are parameters of an Env record, so every claim is settled for
all behaviours of the collaborators, or refuted at a concrete one.
-/

deriving instance DecidableEq for Except

namespace V4C

/-! ### Python-style string primitives

Python str.split(sep) for a single-character separator, str.strip(),
int(...), modelled on the character list of the string. -/

/-- Splitting a character list at every occurrence of a separator, keeping
empty parts, exactly like Python str.split with an explicit separator. -/
def splitOnChar (sep : Char) : List Char → List (List Char)
  | [] => [[]]
  | c :: rest =>
      match splitOnChar sep rest with
      | [] => if c == sep then [[], []] else [[c]]
      | h :: t => if c == sep then [] :: h :: t else (c :: h) :: t

/-- Parsing a non-empty all-digit character list as a natural number. -/
def digitsToNat? (cs : List Char) : Option Nat :=
  if cs.isEmpty then none
  else if cs.all Char.isDigit then
    some (cs.foldl (fun a c => a * 10 + (c.toNat - 48)) 0)
  else none

/-- Stripping leading and trailing whitespace, like Python str.strip(). -/
def pyStrip (cs : List Char) : List Char :=
  ((cs.dropWhile Char.isWhitespace).reverse.dropWhile Char.isWhitespace).reverse

/-- Python int(s): optional surrounding whitespace, optional sign, digits. -/
def pyInt? (cs : List Char) : Option Int :=
  match pyStrip cs with
  | '-' :: rest => (digitsToNat? rest).map (fun n => -(n : Int))
  | '+' :: rest => (digitsToNat? rest).map (fun n => (n : Int))
  | other => (digitsToNat? other).map (fun n => (n : Int))

/-- Python str.strip() on a String. -/
def strip (s : String) : String := String.mk (pyStrip s.data)

/-- Python str.endsWith on a String. -/
def endsWithS (s suffix : String) : Bool := suffix.data.isSuffixOf s.data

/-- Python truthiness of an optional string: None and the empty string are
falsy, every other string is truthy. -/
def truthyS (o : Option String) : Bool :=
  match o with
  | none => false
  | some s => !(s == "")

/-- The underlying string of an optional string argument (only meaningful
behind a truthyS guard, as in the Python source). -/
def sval (o : Option String) : String := o.getD ""

/-- Python floor division on integers (the // operator). -/
def pyDiv (a b : Int) : Int := Int.fdiv a b

/-! ### Coordinate strings

validate_inputs parses a coordinates string with
chrom, pos = coords.split(":"); start, end = map(int, pos.split("-")),
which requires exactly two parts at each split.  The resolver at
extract.py:135 instead indexes parts 0 and 1, tolerating extra parts. -/

/-- Strict parse of a "chrom:start-end" string, as in validate_inputs
(extract.py lines 61-62): both splits must yield exactly two parts and the
two positions must parse as Python ints. -/
def parse_coords (c : String) : Option (String × Int × Int) :=
  match splitOnChar ':' c.data with
  | [chrom, pos] =>
      match splitOnChar '-' pos with
      | [s, e] =>
          match pyInt? s, pyInt? e with
          | some a, some b => some (String.mk chrom, a, b)
          | _, _ => none
      | _ => none
  | _ => none

/-- Loose parse of a coordinates string, as at extract.py line 135: the
first two parts of each split are used and further parts are ignored. -/
def parse_coords_loose (c : String) : Option (String × Int × Int) :=
  match splitOnChar ':' c.data with
  | chrom :: pos :: _ =>
      match splitOnChar '-' pos with
      | s :: e :: _ =>
          match pyInt? s, pyInt? e with
          | some a, some b => some (String.mk chrom, a, b)
          | _, _ => none
      | _ => none
  | _ => none

/-! ### Errors, data model, effects, environment -/

/-- The Python exception taxonomy of extract.py: InputValidationError and
FileProcessingError extend the base V4CError; pyRaw stands for any other
Python exception (ValueError, IndexError, cooler errors, ...), carrying
its str(e) message. -/
inductive PyError where
  | inputValidation (msg : String)
  | fileProcessing (msg : String)
  | v4cBase (msg : String)
  | pyRaw (msg : String)
deriving DecidableEq, Repr

/-- The str(e) message of an exception. -/
def PyError.msg : PyError → String
  | .inputValidation m => m
  | .fileProcessing m => m
  | .v4cBase m => m
  | .pyRaw m => m

/-- Whether the exception is an instance of the V4CError base class
(caught by the except V4CError clause at extract.py:243). -/
def PyError.isV4C : PyError → Bool
  | .pyRaw _ => false
  | _ => true

/-- A (chrom, start, end) tuple, as stored in promoter_coords. -/
abbrev Coord := String × Int × Int

/-- One row of a genome promoter table (columns chrom, start, end, gene of
genome/{genome}_promoters.bed; the source field named end is stop here). -/
structure PromoterEntry where
  chrom : String
  start : Int
  stop : Int
  gene : String
deriving DecidableEq, Repr

/-- The (chrom, start, end) coordinate triple of a promoter table row. -/
def PromoterEntry.coord (p : PromoterEntry) : Coord := (p.chrom, p.start, p.stop)

/-- One parsed row of a BED file as produced by pandas read_csv with
sep tab and no header: first three columns chrom, start, end (stop here),
remaining cells kept as strings.  pandas enforces a uniform column count,
so a frame is a list of rows of equal extras length. -/
structure BedRow where
  chrom : String
  start : Int
  stop : Int
  extras : List String
deriving DecidableEq, Repr

/-- The (chrom, start, end) coordinate triple of a BED row. -/
def BedRow.coord (r : BedRow) : Coord := (r.chrom, r.start, r.stop)

/-- One entry of the results list of extract_v4c
([mcool, res, chrom, start, end, gene_name] + row_values, extract.py:209;
the source field named end is stop here). -/
structure ResultRow where
  mcool : String
  res : Int
  chrom : String
  start : Int
  stop : Int
  gene_name : String
  values : List ℚ
deriving DecidableEq, Repr

/-- Observable side effects of one extract_v4c call: file-existence
checks, console warnings, reads of the promoter table and the BED file,
matrix fetches, and the final write of the output table. -/
inductive Effect where
  | checkExists (path : String)
  | warn (msg : String)
  | readPromoters (genome : String)
  | readBed (path : String)
  | fetchMatrix (file : String) (res : Int) (balance : Bool) (chrom : String) (ws we : Int)
  | write (path : String) (header : List String) (rows : List ResultRow)
deriving DecidableEq, Repr

/-- The external collaborators of the extraction engine: the file system,
the promoter tables, the pandas BED parser, the cooler matrix accessor
(entries are none for NaN) and the writability of the output path. -/
structure Env where
  fileExists : String → Bool
  promoters : String → List PromoterEntry
  bedFrame : String → Except String (List BedRow)
  fetch : String → Int → Bool → String → Int → Int → Except String (List (List (Option ℚ)))
  writeErr : String → Option String

/-- The arguments of extract_v4c. -/
structure Params where
  mcool_files : List String
  resolutions : List Int
  coords : Option String
  genes : Option String
  genome : Option String
  bed_file : Option String
  flank : Int
  balance : Bool
  scale : Bool
  normalization_method : String
  use_fixed_center : Bool
  output : String

/-! ### The effect monad: a trace of effects plus a Python-style result -/

/-- A computation of the extraction engine: the effects it performed, in
order, and either its value or the exception it raised. -/
abbrev EffM (α : Type) := List Effect × Except PyError α

instance : Monad EffM where
  pure a := ([], Except.ok a)
  bind x f :=
    match x.2 with
    | .error e => (x.1, .error e)
    | .ok a => (x.1 ++ (f a).1, (f a).2)

/-- Raising an exception. -/
def throwE {α : Type} (e : PyError) : EffM α := ([], .error e)

/-- Performing one observable effect. -/
def emit (e : Effect) : EffM Unit := ([e], .ok ())

/-! ### validate_inputs (extract.py lines 22-74) -/

/-- The final check of validate_inputs (extract.py lines 72-74): the
normalization method must be minmax or self. -/
def validate_norm (normalization_method : String) : EffM Unit :=
  if !(normalization_method == "minmax" || normalization_method == "self") then
    throwE (.inputValidation ("Invalid normalization method: " ++ normalization_method ++ ". Must be minmax or self"))
  else pure ()

/-- The BED-file existence check of validate_inputs (extract.py lines
69-70) followed by the normalization check; the os.path.exists call is
the only effect of validation. -/
def validate_bed_norm (env : Env) (bed_file : Option String)
    (normalization_method : String) : EffM Unit :=
  if truthyS bed_file then
    emit (.checkExists (sval bed_file)) >>= fun _ =>
      if !(env.fileExists (sval bed_file)) then
        throwE (.inputValidation ("BED file not found: " ++ sval bed_file))
      else validate_norm normalization_method
  else validate_norm normalization_method

/-- Embedding of validate_inputs (extract.py lines 22-74): the checks in
source order, each raising InputValidationError with the source message
and aborting the rest (Python raise), modelled as an early-exit chain. -/
def validate_inputs (env : Env) (mcool_files : List String) (resolutions : List Int)
    (coords genes genome bed_file : Option String)
    (normalization_method : String) : EffM Unit :=
  if mcool_files.isEmpty then
    throwE (.inputValidation "No mcool files provided")
  else if resolutions.isEmpty then
    throwE (.inputValidation "No resolutions provided")
  else if !(resolutions.all (fun r => r > 0)) then
    throwE (.inputValidation "Resolutions must be positive integers")
  else if truthyS genome && !(sval genome == "hg38" || sval genome == "hg19") then
    throwE (.inputValidation ("Invalid genome version: " ++ sval genome ++ ". Must be hg38 or hg19"))
  else if truthyS coords then
    match parse_coords (sval coords) with
    | some (_, start, stop) =>
        if start ≥ stop then
          throwE (.inputValidation "Start position must be less than end position")
        else validate_bed_norm env bed_file normalization_method
    | none =>
        throwE (.inputValidation "Invalid coordinates format. Expected format: chr:start-end")
  else validate_bed_norm env bed_file normalization_method

/-! ### validate_mcool_files (utils.py lines 45-70) -/

/-- Whether a listed file survives the validate_mcool_files filter: it
exists and its name ends in .mcool. -/
def validFileB (env : Env) (f : String) : Bool :=
  env.fileExists f && endsWithS f ".mcool"

/-- The filtering loop of validate_mcool_files: skips missing files and
files without the .mcool suffix, printing a warning for each. -/
def scanFiles (env : Env) : List String → EffM (List String)
  | [] => pure []
  | f :: rest => do
      emit (.checkExists f)
      if !(env.fileExists f) then do
        emit (.warn ("Warning: File not found: " ++ f))
        scanFiles env rest
      else if !(endsWithS f ".mcool") then do
        emit (.warn ("Warning: File is not a .mcool file: " ++ f))
        scanFiles env rest
      else do
        let vs ← scanFiles env rest
        pure (f :: vs)

/-- Embedding of validate_mcool_files: filters the list and raises a bare
ValueError (not a V4CError) when no valid file remains. -/
def validate_mcool_files (env : Env) (mcool_files : List String) : EffM (List String) :=
  scanFiles env mcool_files >>= fun valid =>
    if valid.isEmpty then throwE (.pyRaw "No valid .mcool files found")
    else pure valid

/-! ### get_promoter_coords (utils.py lines 6-26) -/

/-- Embedding of get_promoter_coords.  The promoter table for the genome
build is env.promoters genome (the source reads it from
genome/{genome}_promoters.bed; the model assumes that file is readable).
With a truthy gene it filters by exact gene symbol, otherwise by
chromosome identity and interval overlap. -/
def get_promoter_coords (env : Env) (genome : String)
    (chrom : Option String) (start stop : Option Int)
    (gene : Option String) : EffM (List Coord) := do
  emit (.readPromoters genome)
  let promoters := env.promoters genome
  if truthyS gene then
    pure ((promoters.filter (fun p => p.gene == sval gene)).map PromoterEntry.coord)
  else
    match chrom, start, stop with
    | some c, some s, some e =>
        pure ((promoters.filter (fun p => p.chrom == c && p.start ≤ e && p.stop ≥ s)).map PromoterEntry.coord)
    | _, _, _ => throwE (.pyRaw "TypeError: comparison not supported with None")

/-! ### The region resolver (extract.py lines 122-161) -/

/-- A Python dict write gene_mapping[coord] = gene, modelled on an
association list where the most recent write is found first. -/
def dictInsert (m : List (Coord × String)) (k : Coord) (v : String) : List (Coord × String) :=
  (k, v) :: m

/-- The gene branch (extract.py lines 125-133): for each comma-separated,
stripped gene symbol, look up its promoter coordinates, extend
promoter_coords and record the gene name for each coordinate. -/
def geneBranch (env : Env) (genome : String) :
    List String → List Coord → List (Coord × String) → EffM (List Coord × List (Coord × String))
  | [], pcs, gm => pure (pcs, gm)
  | g :: rest, pcs, gm => do
      let gene := strip g
      let cs ← get_promoter_coords env genome none none none (some gene)
      geneBranch env genome rest (pcs ++ cs) (cs.foldl (fun m c => dictInsert m c gene) gm)

/-- The BED branch (extract.py lines 139-159): read the BED frame; with
four or more columns the fourth column is the gene name, with three there
is no label; any read failure becomes a FileProcessingError. -/
def bedBranch (env : Env) (bed_file : String) : EffM (List Coord × List (Coord × String)) := do
  emit (.readBed bed_file)
  match env.bedFrame bed_file with
  | .error e => throwE (.fileProcessing ("Error reading BED file: " ++ e))
  | .ok rows =>
      if 3 + ((rows.head?.map (fun r => r.extras.length)).getD 0) ≥ 4 then
        pure (rows.map BedRow.coord,
          rows.foldl (fun m r => dictInsert m r.coord ((r.extras.headD ""))) [])
      else
        pure (rows.map BedRow.coord, [])

/-- Embedding of the region-source dispatch of extract_v4c (lines
122-161): genes with genome first, then genome with coords (collapsed to
the midpoint point region), then the BED file, else InputValidationError. -/
def resolveRegions (env : Env) (coords genes genome bed_file : Option String) :
    EffM (List Coord × List (Coord × String)) := do
  if truthyS genes && truthyS genome then
    geneBranch env (sval genome) ((splitOnChar ',' (sval genes).data).map String.mk) [] []
  else if truthyS genome && truthyS coords then
    match parse_coords_loose (sval coords) with
    | some (chrom, start, stop) =>
        pure ([(chrom, pyDiv (start + stop) 2, pyDiv (start + stop) 2)], [])
    | none => throwE (.pyRaw "invalid literal for int() with base 10")
  else if truthyS bed_file then
    bedBranch env (sval bed_file)
  else
    throwE (.inputValidation "Either --coords, --genes with --genome, or --bed must be specified.")

/-! ### Window arithmetic (extract.py lines 170-179) -/

/-- The fixed-center window (extract.py lines 172-175): snap the viewpoint
start down to its bin boundary, then extend by the flank both ways,
clamping the left edge at zero. -/
def fixedCenterWindow (start res flank : Int) : Int × Int :=
  (max 0 (pyDiv start res * res - flank), pyDiv start res * res + flank)

/-- The relative window (extract.py lines 177-179): extend the viewpoint
interval by the flank both ways, clamping the left edge at zero. -/
def relativeWindow (start stop flank : Int) : Int × Int :=
  (max 0 (start - flank), stop + flank)

/-- Modelled from the spec: the number of resolution-sized genomic bins of
the external matrix accessor overlapped by the half-open window
[ws, we); the accessor (cooler, out of scope per the spec) returns one
matrix row and column per such bin. -/
def windowBinCount (ws we res : Int) : Int :=
  if ws < we then pyDiv (we - 1) res - pyDiv ws res + 1 else 0

/-! ### Matrix handling and normalization (extract.py lines 181-204) -/

/-- np.nan_to_num on the fetched matrix: unmeasured (NaN) entries become
zero. -/
def nanToNum (m : List (List (Option ℚ))) : List (List ℚ) :=
  m.map (fun row => row.map (fun x => x.getD 0))

/-- Row extraction matrix[row_index, :] with numpy index semantics: a
negative index counts from the end, an out-of-range index raises. -/
def npRow (m : List (List ℚ)) (i : Int) : Except String (List ℚ) :=
  let j := if i < 0 then (m.length : Int) + i else i
  if 0 ≤ j ∧ j < (m.length : Int) then .ok (m.getD j.toNat []) else
    .error "IndexError: index out of bounds"

/-- Python list indexing row_values[row_index], same index semantics. -/
def pyListGet (xs : List ℚ) (i : Int) : Except String ℚ :=
  let j := if i < 0 then (xs.length : Int) + i else i
  if 0 ≤ j ∧ j < (xs.length : Int) then .ok (xs.getD j.toNat 0) else
    .error "IndexError: list index out of range"

/-- np.min of a profile; empty input raises as numpy does. -/
def npMin (xs : List ℚ) : Except String ℚ :=
  match xs.min? with
  | none => .error "zero-size array to reduction operation minimum"
  | some v => .ok v

/-- np.max of a profile; empty input raises as numpy does. -/
def npMax (xs : List ℚ) : Except String ℚ :=
  match xs.max? with
  | none => .error "zero-size array to reduction operation maximum"
  | some v => .ok v

/-- Embedding of the normalization step (extract.py lines 194-204).  With
scale off the raw profile passes through.  Method self divides by the
viewpoint entry when it is positive and zeroes the whole profile
otherwise; any other method is the minmax branch, whose per-entry
conditional collapses to all zeros when max equals min. -/
def applyNormalization (scale : Bool) (normalization_method : String)
    (row_values : List ℚ) (row_index : Int) : Except String (List ℚ) :=
  if scale then
    if normalization_method == "self" then
      match pyListGet row_values row_index with
      | .error e => .error e
      | .ok v =>
          if v > 0 then .ok (row_values.map (fun x => x / v))
          else .ok (List.replicate row_values.length 0)
    else
      match npMin row_values, npMax row_values with
      | .ok min_val, .ok max_val =>
          .ok (row_values.map (fun x =>
            if max_val > min_val then (x - min_val) / (max_val - min_val) else 0))
      | .error e, _ => .error e
      | .ok _, .error e => .error e
  else .ok row_values

/-! ### The extraction loop (extract.py lines 163-211) -/

/-- The query window of one region (extract.py lines 170-179): the
fixed-center window when use_fixed_center is set, else the relative
window. -/
def queryWindow (use_fixed_center : Bool) (start stop res flank : Int) : Int × Int :=
  if use_fixed_center then fixedCenterWindow start res flank
  else relativeWindow start stop flank

/-- The viewpoint row index within the fetched matrix (extract.py lines
184-190): constant flank // res under the fixed-center policy, else the
offset of the viewpoint bin from the window start bin. -/
def rowIndex (use_fixed_center : Bool) (start region_start res flank : Int) : Int :=
  if use_fixed_center then pyDiv flank res
  else pyDiv start res - pyDiv region_start res

/-- One (file, resolution, region) step (extract.py lines 170-209):
compute the window, fetch the matrix, replace NaNs, compute the viewpoint
row index, extract the row, normalize, and build the result entry with
the gene name looked up in gene_mapping (default empty string). -/
def processRegion (env : Env) (p : Params) (gm : List (Coord × String))
    (mcool : String) (res : Int) (c : Coord) : EffM ResultRow :=
  emit (.fetchMatrix mcool res p.balance c.1
      (queryWindow p.use_fixed_center c.2.1 c.2.2 res p.flank).1
      (queryWindow p.use_fixed_center c.2.1 c.2.2 res p.flank).2) >>= fun _ =>
    match env.fetch mcool res p.balance c.1
        (queryWindow p.use_fixed_center c.2.1 c.2.2 res p.flank).1
        (queryWindow p.use_fixed_center c.2.1 c.2.2 res p.flank).2 with
    | .error e => throwE (.pyRaw e)
    | .ok raw =>
        match npRow (nanToNum raw)
            (rowIndex p.use_fixed_center c.2.1
              (queryWindow p.use_fixed_center c.2.1 c.2.2 res p.flank).1 res p.flank) with
        | .error e => throwE (.pyRaw e)
        | .ok row_values =>
            match applyNormalization p.scale p.normalization_method row_values
                (rowIndex p.use_fixed_center c.2.1
                  (queryWindow p.use_fixed_center c.2.1 c.2.2 res p.flank).1 res p.flank) with
            | .error e => throwE (.pyRaw e)
            | .ok vals =>
                pure { mcool := mcool, res := res, chrom := c.1, start := c.2.1,
                       stop := c.2.2,
                       gene_name := ((gm.lookup (c.1, c.2.1, c.2.2)).getD ""),
                       values := vals }

/-- The region loop for one (file, resolution) pair, appending one result
row per region in order. -/
def innerLoop (env : Env) (p : Params) (gm : List (Coord × String))
    (mcool : String) (res : Int) : List Coord → EffM (List ResultRow)
  | [] => pure []
  | c :: rest => do
      let row ← processRegion env p gm mcool res c
      let rows ← innerLoop env p gm mcool res rest
      pure (row :: rows)

/-- The per-(file, resolution) exception handler (extract.py lines
210-211): any exception from the inner loop is re-raised as a
FileProcessingError naming the file and the resolution. -/
def wrapFileRes (mcool : String) (res : Int) (x : EffM (List ResultRow)) :
    EffM (List ResultRow) :=
  match x with
  | (t, .error e) =>
      (t, .error (.fileProcessing
        ("Error processing file " ++ mcool ++ " at resolution " ++ toString res ++ ": " ++ e.msg)))
  | ok => ok

/-- The resolution loop for one file. -/
def loopRes (env : Env) (p : Params) (gm : List (Coord × String))
    (pcs : List Coord) (mcool : String) : List Int → EffM (List ResultRow)
  | [] => pure []
  | res :: rest => do
      let rows ← wrapFileRes mcool res (innerLoop env p gm mcool res pcs)
      let more ← loopRes env p gm pcs mcool rest
      pure (rows ++ more)

/-- The file loop (files outer, then resolutions, then regions). -/
def loopFiles (env : Env) (p : Params) (gm : List (Coord × String))
    (pcs : List Coord) : List String → EffM (List ResultRow)
  | [] => pure []
  | mcool :: rest => do
      let rows ← loopRes env p gm pcs mcool p.resolutions
      let more ← loopFiles env p gm pcs rest
      pure (rows ++ more)

/-! ### The result assembler (extract.py lines 213-241) -/

/-- The column count of pandas DataFrame(results) built from ragged
lists: the maximum row length, shorter rows being NaN-padded. -/
def dfNumCols (results : List ResultRow) : Nat :=
  results.foldl (fun m r => max m (6 + r.values.length)) 0

/-- The six metadata column names of the output table. -/
def metaCols : List String := ["mcool", "res", "chrom", "start", "end", "gene_name"]

/-- Header generation (extract.py lines 216-238): genomic-coordinate
names computed from the first row (position start - flank + i * res),
used only when their count matches the DataFrame column count; otherwise
the generic contact_i fallback names.  An empty results list gets no
header assignment (the empty header). -/
def assembleHeader (results : List ResultRow) (flank : Int) : List String :=
  match results with
  | [] => []
  | first :: _ =>
      let contact_cols := (List.range first.values.length).map
        (fun i => toString (first.start - flank + Int.ofNat i * first.res))
      if (metaCols ++ contact_cols).length = dfNumCols results then
        metaCols ++ contact_cols
      else
        metaCols ++ (List.range (dfNumCols results - 6)).map
          (fun i => "contact_" ++ toString i)

/-- The serialization step (extract.py lines 213-241): assemble the
header and write the table; a failing destination raises
FileProcessingError and produces no artifact. -/
def writeOutput (env : Env) (output : String) (results : List ResultRow)
    (flank : Int) : EffM Unit :=
  match env.writeErr output with
  | some e => ([], .error (.fileProcessing ("Error saving results to " ++ output ++ ": " ++ e)))
  | none => ([.write output (assembleHeader results flank) results], .ok ())

/-! ### extract_v4c (extract.py lines 76-246) -/

/-- The outer exception policy (extract.py lines 243-246): V4CError
instances propagate unchanged, anything else is wrapped into the base
V4CError with an Unexpected error prefix. -/
def wrapUnexpected {α : Type} (x : EffM α) : EffM α :=
  match x with
  | (t, .error e) =>
      if e.isV4C then (t, .error e)
      else (t, .error (.v4cBase ("Unexpected error in extract_v4c: " ++ e.msg)))
  | ok => ok

/-- Embedding of extract_v4c: validate inputs, filter the mcool files
(the FileProcessingError guard on an empty filtered list is unreachable
because validate_mcool_files already raised), resolve the regions, run
the extraction loop, and write the output table. -/
def extract_v4c (env : Env) (p : Params) : EffM Unit :=
  wrapUnexpected
    (validate_inputs env p.mcool_files p.resolutions p.coords p.genes p.genome
        p.bed_file p.normalization_method >>= fun _ =>
      validate_mcool_files env p.mcool_files >>= fun valid_mcool_files =>
      (if valid_mcool_files.isEmpty then
          throwE (.fileProcessing "No valid mcool files found")
        else pure ()) >>= fun _ =>
      resolveRegions env p.coords p.genes p.genome p.bed_file >>= fun rg =>
      loopFiles env p rg.2 rg.1 valid_mcool_files >>= fun results =>
      writeOutput env p.output results p.flank)

/-! ### Observers used by the claims -/

/-- Whether an effect is the output-table write. -/
def Effect.isWrite : Effect → Bool
  | .write _ _ _ => true
  | _ => false

/-- Whether a trace is free of output writes. -/
def noWriteB (t : List Effect) : Bool := t.all (fun e => !e.isWrite)

/-- The output tables written in a trace (path, header, rows). -/
def writtenTables : List Effect → List (String × List String × List ResultRow)
  | [] => []
  | .write o h r :: rest => (o, h, r) :: writtenTables rest
  | _ :: rest => writtenTables rest

/-- Whether every matrix fetch in a trace names a file from the given
list. -/
def fetchOnlyFrom (files : List String) (t : List Effect) : Bool :=
  t.all (fun e =>
    match e with
    | .fetchMatrix f _ _ _ _ _ => files.contains f
    | _ => true)

/-- Whether the result of a run is an InputValidationError. -/
def errIsInputValidation {α : Type} (r : Except PyError α) : Bool :=
  match r with
  | .error (.inputValidation _) => true
  | _ => false

/-- Whether the validate_mcool_files loop printed the appropriate warning
for a file it skipped. -/
def warnedFor (env : Env) (t : List Effect) (f : String) : Bool :=
  if !(env.fileExists f) then t.contains (.warn ("Warning: File not found: " ++ f))
  else t.contains (.warn ("Warning: File is not a .mcool file: " ++ f))

/-- Effect class of the validation and region-resolution stages:
file-existence checks, warnings and table reads; never a fetch, never a
write. -/
def preLoopEffect : Effect → Bool
  | .checkExists _ => true
  | .warn _ => true
  | .readPromoters _ => true
  | .readBed _ => true
  | _ => false

/-- Effect class of the extraction loop: matrix fetches from the given
file list only; never a write. -/
def loopEffectOk (files : List String) : Effect → Bool
  | .fetchMatrix f _ _ _ _ _ => files.contains f
  | _ => false

/-- A concrete sample environment for exercising the pipeline: one
existing file a.mcool, one promoter on chr1, an unreadable BED file, a
1x1 contact matrix from every fetch, and a writable output path. -/
def envOkOne : Env where
  fileExists := fun f => f == "a.mcool"
  promoters := fun _ => [⟨"chr1", 120, 180, "G1"⟩]
  bedFrame := fun _ => .error "unreadable"
  fetch := fun _ _ _ _ _ _ => .ok [[some 1]]
  writeErr := fun _ => none

/-- A concrete sample parameter set: one file, one resolution, a
coordinates region with a genome build, no scaling. -/
def pCoords : Params where
  mcool_files := ["a.mcool"]
  resolutions := [1]
  coords := some "c:0-2"
  genes := none
  genome := some "hg38"
  bed_file := none
  flank := 0
  balance := true
  scale := false
  normalization_method := "minmax"
  use_fixed_center := false
  output := "o.tsv"

/-- Whether index i holds a maximum of the profile (an argmax position). -/
def isArgmaxB (xs : List ℚ) (i : Nat) : Bool :=
  decide (i < xs.length) &&
    (List.range xs.length).all (fun j => decide (xs.getD j 0 ≤ xs.getD i 0))

/-- Whether index i holds a minimum of the profile (an argmin position). -/
def isArgminB (xs : List ℚ) (i : Nat) : Bool :=
  decide (i < xs.length) &&
    (List.range xs.length).all (fun j => decide (xs.getD i 0 ≤ xs.getD j 0))

/-! ## Theorems

First the plumbing lemmas for the effect monad, Python floor division and
the numpy reductions, then one theorem (with witness or counterexample)
per claim of the specification. -/

theorem EffM.bind_def {α β : Type} (x : EffM α) (f : α → EffM β) :
    x >>= f = match x.2 with
      | .error e => (x.1, .error e)
      | .ok a => (x.1 ++ (f a).1, (f a).2) := rfl

@[simp] theorem EffM.bind_ok {α β : Type} (t : List Effect) (a : α) (f : α → EffM β) :
    (Bind.bind (t, Except.ok a) f : EffM β) = (t ++ (f a).1, (f a).2) := rfl

@[simp] theorem EffM.bind_err {α β : Type} (t : List Effect) (e : PyError) (f : α → EffM β) :
    (Bind.bind (t, Except.error e) f : EffM β) = (t, Except.error e) := rfl

@[simp] theorem EffM.pure_def {α : Type} (a : α) :
    (Pure.pure a : EffM α) = ([], Except.ok a) := rfl

@[simp] theorem throwE_def {α : Type} (e : PyError) :
    (throwE e : EffM α) = ([], Except.error e) := rfl

@[simp] theorem emit_def (e : Effect) : emit e = ([e], Except.ok ()) := rfl

/-- Python floor division agrees with Euclidean division for a
non-negative divisor. -/
theorem pyDiv_eq_ediv (a : Int) {b : Int} (hb : 0 ≤ b) : pyDiv a b = a / b := by
  unfold pyDiv
  obtain ⟨n, rfl⟩ := Int.eq_ofNat_of_zero_le hb
  cases a with
  | ofNat m =>
      cases m with
      | zero =>
          show (0 : Int) = Int.ediv (Int.ofNat 0) (Int.ofNat n)
          show (0 : Int) = Int.ofNat (0 / n)
          simp
      | succ k => rfl
  | negSucc m =>
      cases n with
      | zero => rfl
      | succ k => rfl

/-- np.min returns a member of the profile that bounds it from below. -/
theorem npMin_spec {xs : List ℚ} {v : ℚ} (h : npMin xs = .ok v) :
    v ∈ xs ∧ ∀ b ∈ xs, v ≤ b := by
  haveI : Std.Antisymm (fun a b : ℚ => a ≤ b) := ⟨fun h1 h2 => le_antisymm h1 h2⟩
  unfold npMin at h
  cases hm : xs.min? with
  | none => rw [hm] at h; exact absurd h (by simp)
  | some w =>
      rw [hm] at h
      cases h
      have := (List.min?_eq_some_iff (fun a : ℚ => le_refl a) min_choice
        (fun a b c : ℚ => le_min_iff)).mp hm
      exact ⟨this.1, this.2⟩

/-- np.max returns a member of the profile that bounds it from above. -/
theorem npMax_spec {xs : List ℚ} {v : ℚ} (h : npMax xs = .ok v) :
    v ∈ xs ∧ ∀ b ∈ xs, b ≤ v := by
  haveI : Std.Antisymm (fun a b : ℚ => a ≤ b) := ⟨fun h1 h2 => le_antisymm h1 h2⟩
  unfold npMax at h
  cases hm : xs.max? with
  | none => rw [hm] at h; exact absurd h (by simp)
  | some w =>
      rw [hm] at h
      cases h
      have := (List.max?_eq_some_iff (fun a : ℚ => le_refl a) max_choice
        (fun a b c : ℚ => max_le_iff)).mp hm
      exact ⟨this.1, this.2⟩

/-- np.min and np.max succeed exactly on non-empty profiles. -/
theorem npMin_ok_of_ne_nil {xs : List ℚ} (h : xs ≠ []) :
    ∃ v, npMin xs = .ok v := by
  unfold npMin
  cases hm : xs.min? with
  | none => exact absurd (List.min?_eq_none_iff.mp hm) h
  | some w => exact ⟨w, rfl⟩

theorem npMax_ok_of_ne_nil {xs : List ℚ} (h : xs ≠ []) :
    ∃ v, npMax xs = .ok v := by
  unfold npMax
  cases hm : xs.max? with
  | none => exact absurd (List.max?_eq_none_iff.mp hm) h
  | some w => exact ⟨w, rfl⟩

/-- An all over a trace transfers along a pointwise implication. -/
theorem all_implies {t : List Effect} {p q : Effect → Bool}
    (h : t.all p = true) (himp : ∀ e, p e = true → q e = true) : t.all q = true := by
  simp only [List.all_eq_true] at h ⊢
  exact fun e he => himp e (h e he)

/-- An all over the trace of a bind follows from alls over both parts. -/
theorem all_bind {α β : Type} {p : Effect → Bool} {x : EffM α} {f : α → EffM β}
    (hx : x.1.all p = true) (hf : ∀ a, ((f a).1.all p) = true) :
    ((x >>= f).1.all p) = true := by
  rcases x with ⟨t, r⟩
  cases r with
  | error e => simpa using hx
  | ok a =>
      show ((t ++ (f a).1).all p) = true
      rw [List.all_append]
      simp only [Bool.and_eq_true]
      exact ⟨by simpa using hx, hf a⟩

/-- An all over the trace of a conditional follows from alls over both
branches. -/
theorem ite_trace_all {α : Type} {p : Effect → Bool} (c : Prop) [Decidable c] (x y : EffM α)
    (hx : x.1.all p = true) (hy : y.1.all p = true) :
    (((if c then x else y) : EffM α).1.all p) = true := by
  split
  · exact hx
  · exact hy

/-- The normalization-method check performs no effects. -/
theorem validate_norm_trace (nm : String) :
    (validate_norm nm).1.all preLoopEffect = true := by
  unfold validate_norm
  exact ite_trace_all _ _ _ (by simp) (by simp)

/-- The BED and normalization checks perform only a file-existence
check. -/
theorem validate_bed_norm_trace (env : Env) (bed : Option String) (nm : String) :
    (validate_bed_norm env bed nm).1.all preLoopEffect = true := by
  unfold validate_bed_norm
  refine ite_trace_all _ _ _ ?_ (validate_norm_trace nm)
  refine all_bind (by simp [preLoopEffect]) (fun _ => ?_)
  exact ite_trace_all _ _ _ (by simp) (validate_norm_trace nm)

/-- Input validation performs only file-existence checks: no fetch, no
write. -/
theorem validate_inputs_trace (env : Env) (mf : List String) (rs : List Int)
    (coords genes genome bed : Option String) (nm : String) :
    (validate_inputs env mf rs coords genes genome bed nm).1.all preLoopEffect = true := by
  unfold validate_inputs
  refine ite_trace_all _ _ _ (by simp) ?_
  refine ite_trace_all _ _ _ (by simp) ?_
  refine ite_trace_all _ _ _ (by simp) ?_
  refine ite_trace_all _ _ _ (by simp) ?_
  refine ite_trace_all _ _ _ ?_ (validate_bed_norm_trace env bed nm)
  rcases parse_coords (sval coords) with _ | ⟨⟨ch, a, b⟩⟩
  · simp
  · exact ite_trace_all _ _ _ (by simp) (validate_bed_norm_trace env bed nm)

/-- With a truthy malformed coordinates string (no separator,
non-numeric positions, or start at least end), input validation fails
with an InputValidationError before performing any effect. -/
theorem validate_inputs_bad_coords (env : Env) (mf : List String) (rs : List Int)
    (coords genes genome bed : Option String) (nm : String)
    (hc : truthyS coords = true)
    (hbad : (∃ ch a b, parse_coords (sval coords) = some (ch, a, b) ∧ a ≥ b) ∨
      parse_coords (sval coords) = none) :
    (validate_inputs env mf rs coords genes genome bed nm).1 = [] ∧
    errIsInputValidation (validate_inputs env mf rs coords genes genome bed nm).2 = true := by
  unfold validate_inputs
  by_cases h1 : mf.isEmpty
  · simp [h1, errIsInputValidation]
  by_cases h2 : rs.isEmpty
  · simp [h1, h2, errIsInputValidation]
  by_cases h3 : rs.all (fun r => r > 0)
  case neg => simp [h1, h2, h3, errIsInputValidation]
  by_cases h4 : truthyS genome = true ∧ ¬ sval genome = "hg38" ∧ ¬ sval genome = "hg19"
  · simp [h1, h2, h3, h4, errIsInputValidation]
  · rcases hbad with ⟨ch, a, b, hp, hge⟩ | hp
    · have hge2 : b ≤ a := hge
      simp [h1, h2, h3, h4, hc, hp, hge2, errIsInputValidation]
    · simp [h1, h2, h3, h4, hc, hp, errIsInputValidation]

/-- The file-filtering loop performs only existence checks and
warnings. -/
theorem scanFiles_trace (env : Env) (files : List String) :
    (scanFiles env files).1.all preLoopEffect = true := by
  induction files with
  | nil => simp [scanFiles]
  | cons f rest ih =>
      unfold scanFiles
      by_cases h1 : env.fileExists f
      · by_cases h2 : endsWithS f ".mcool"
        · rcases hrec : scanFiles env rest with ⟨t, r⟩
          rw [hrec] at ih
          cases r <;> simp_all [preLoopEffect]
        · rcases hrec : scanFiles env rest with ⟨t, r⟩
          rw [hrec] at ih
          cases r <;> simp_all [preLoopEffect]
      · rcases hrec : scanFiles env rest with ⟨t, r⟩
        rw [hrec] at ih
        cases r <;> simp_all [preLoopEffect]

/-- The file-filtering loop always succeeds and returns exactly the
files that exist and end in .mcool, in order. -/
theorem scanFiles_ok (env : Env) (files : List String) :
    (scanFiles env files).2 = .ok (files.filter (validFileB env)) := by
  induction files with
  | nil => simp [scanFiles]
  | cons f rest ih =>
      unfold scanFiles
      rcases hrec : scanFiles env rest with ⟨t, r⟩
      rw [hrec] at ih
      simp only at ih
      subst ih
      by_cases h1 : env.fileExists f
      · by_cases h2 : endsWithS f ".mcool"
        · simp [h1, h2, validFileB, List.filter_cons]
        · simp [h1, h2, validFileB, List.filter_cons]
      · simp [h1, validFileB, List.filter_cons]

/-- Python list indexing at a valid non-negative index returns the
element. -/
theorem pyListGet_nat (p : List ℚ) (i : Nat) (hi : i < p.length) :
    pyListGet p (i : Int) = .ok (p.getD i 0) := by
  have h0 : ¬((i : Int) < 0) := by omega
  have h1 : (0:Int) ≤ (i:Int) ∧ (i:Int) < (p.length:Int) := ⟨by omega, by exact_mod_cast hi⟩
  simp only [pyListGet, if_neg h0, if_pos h1]
  simp

/-- Two Boolean alls over an index range agree when the predicates agree
on the range. -/
theorem all_range_congr {n : Nat} {f g : Nat → Bool} (h : ∀ j, j < n → f j = g j) :
    (List.range n).all f = (List.range n).all g := by
  apply Bool.coe_iff_coe.mp
  simp only [List.all_eq_true, List.mem_range]
  constructor
  · intro hf j hj; rw [← h j hj]; exact hf j hj
  · intro hg j hj; rw [h j hj]; exact hg j hj

/-- getD through a map at an in-range index. -/
theorem getD_map_affine (p : List ℚ) (f : ℚ → ℚ) (j : Nat) (hj : j < p.length) :
    (p.map f).getD j 0 = f (p.getD j 0) := by
  simp [List.getD_eq_getElem?_getD, List.getElem?_map, List.getElem?_eq_getElem hj]

/-- A positive-slope affine rescaling of a profile preserves its argmax
positions. -/
theorem isArgmaxB_affine (p : List ℚ) (mn d : ℚ) (hd : 0 < d) (i : Nat) :
    isArgmaxB (p.map (fun x => (x - mn) / d)) i = isArgmaxB p i := by
  unfold isArgmaxB
  rw [List.length_map]
  by_cases hi : i < p.length
  · congr 1
    apply all_range_congr
    intro j hj
    apply decide_eq_decide.mpr
    rw [getD_map_affine p _ j hj, getD_map_affine p _ i hi,
      div_le_div_right hd, sub_le_sub_iff_right]
  · simp [hi]

/-- A positive-slope affine rescaling of a profile preserves its argmin
positions. -/
theorem isArgminB_affine (p : List ℚ) (mn d : ℚ) (hd : 0 < d) (i : Nat) :
    isArgminB (p.map (fun x => (x - mn) / d)) i = isArgminB p i := by
  unfold isArgminB
  rw [List.length_map]
  by_cases hi : i < p.length
  · congr 1
    apply all_range_congr
    intro j hj
    apply decide_eq_decide.mpr
    rw [getD_map_affine p _ j hj, getD_map_affine p _ i hi,
      div_le_div_right hd, sub_le_sub_iff_right]
  · simp [hi]

/-- C3: self-normalization divides every entry of the profile by the
value at the viewpoint's row index; when that value is positive the
normalized profile is exactly 1 at the viewpoint index, and when it is
non-positive the whole profile becomes all-zero of the same length
(extract.py lines 196-201). -/
theorem self_normalization_spec (p : List ℚ) (i : Nat) (hi : i < p.length) :
    (0 < p.getD i 0 →
      applyNormalization true "self" p (i : Int) = .ok (p.map (fun x => x / p.getD i 0)) ∧
      (p.map (fun x => x / p.getD i 0)).getD i 0 = 1) ∧
    (p.getD i 0 ≤ 0 →
      applyNormalization true "self" p (i : Int) = .ok (List.replicate p.length 0)) := by
  have hget := pyListGet_nat p i hi
  constructor
  · intro hpos
    have hpos2 : 0 < p[i]?.getD 0 := by simpa using hpos
    constructor
    · simp [applyNormalization, hget, hpos2]
    · have h1 : (p.map (fun x => x / p.getD i 0)).getD i 0 = p.getD i 0 / p.getD i 0 := by
        simp [List.getD_eq_getElem?_getD, List.getElem?_map, List.getElem?_eq_getElem hi]
      rw [h1, div_self (ne_of_gt hpos)]
  · intro hnp
    have hnp2 : ¬(0 < p[i]?.getD 0) := by simpa using not_lt.mpr hnp
    simp [applyNormalization, hget, hnp2]

/-- Witness for C3 at the profile [2, 4] and viewpoint index 0. -/
theorem self_normalization_spec_witness :
    (0 < [(2:ℚ), 4].length) ∧
    ((0 < [(2:ℚ), 4].getD 0 0 →
        applyNormalization true "self" [(2:ℚ), 4] ((0:Nat) : Int) =
          .ok ([(2:ℚ), 4].map (fun x => x / [(2:ℚ), 4].getD 0 0)) ∧
        ([(2:ℚ), 4].map (fun x => x / [(2:ℚ), 4].getD 0 0)).getD 0 0 = 1) ∧
      ([(2:ℚ), 4].getD 0 0 ≤ 0 →
        applyNormalization true "self" [(2:ℚ), 4] ((0:Nat) : Int) =
          .ok (List.replicate [(2:ℚ), 4].length 0))) :=
  ⟨by decide, self_normalization_spec [(2:ℚ), 4] 0 (by decide)⟩

/-- C4: minmax normalization computes (x - min) / (max - min) per entry;
when max exceeds min every normalized value lies in [0, 1] and the
argmax and argmin positions of the profile are preserved; when max
equals min the result is the all-zero profile of the same length
(extract.py lines 202-204). -/
theorem minmax_normalization_spec (p : List ℚ) (r : Int) (mn mx : ℚ)
    (hmn : npMin p = .ok mn) (hmx : npMax p = .ok mx) :
    applyNormalization true "minmax" p r =
      .ok (p.map (fun x => if mx > mn then (x - mn) / (mx - mn) else 0)) ∧
    (mn < mx →
      ((p.map (fun x => if mx > mn then (x - mn) / (mx - mn) else 0)).all
        (fun x => decide (0 ≤ x) && decide (x ≤ 1)) = true) ∧
      ((List.range p.length).all (fun i =>
        isArgmaxB p i == isArgmaxB (p.map (fun x => if mx > mn then (x - mn) / (mx - mn) else 0)) i) = true) ∧
      ((List.range p.length).all (fun i =>
        isArgminB p i == isArgminB (p.map (fun x => if mx > mn then (x - mn) / (mx - mn) else 0)) i) = true)) ∧
    (mx = mn →
      applyNormalization true "minmax" p r = .ok (List.replicate p.length 0)) := by
  have hne : (("minmax" : String) == "self") = false := by decide
  have happ : applyNormalization true "minmax" p r =
      .ok (p.map (fun x => if mx > mn then (x - mn) / (mx - mn) else 0)) := by
    simp [applyNormalization, hne, hmn, hmx]
  refine ⟨happ, ?_, ?_⟩
  · intro hlt
    have hd : (0:ℚ) < mx - mn := sub_pos.mpr hlt
    have hfun : (fun x : ℚ => if mx > mn then (x - mn) / (mx - mn) else 0) =
        (fun x : ℚ => (x - mn) / (mx - mn)) := funext fun x => if_pos hlt
    rw [hfun]
    refine ⟨?_, ?_, ?_⟩
    · simp only [List.all_eq_true, List.mem_map]
      rintro x ⟨a, ha, rfl⟩
      have h1 : mn ≤ a := (npMin_spec hmn).2 a ha
      have h2 : a ≤ mx := (npMax_spec hmx).2 a ha
      simp only [Bool.and_eq_true, decide_eq_true_eq]
      exact ⟨div_nonneg (by linarith) hd.le, (div_le_one hd).mpr (by linarith)⟩
    · simp only [List.all_eq_true, List.mem_range]
      intro i hi
      rw [isArgmaxB_affine p mn (mx - mn) hd i]
      simp
    · simp only [List.all_eq_true, List.mem_range]
      intro i hi
      rw [isArgminB_affine p mn (mx - mn) hd i]
      simp
  · intro heq
    rw [happ]
    have hfun : (fun x : ℚ => if mx > mn then (x - mn) / (mx - mn) else 0) =
        (fun _ : ℚ => (0:ℚ)) := funext fun x => if_neg (by rw [heq]; exact lt_irrefl mn)
    rw [hfun, List.map_const']

/-- Witness for C4 at the profile [0, 2]: the hypotheses hold and the
normalized profile is [0, 1]. -/
theorem minmax_normalization_spec_witness :
    npMin [(0:ℚ), 2] = .ok 0 ∧ npMax [(0:ℚ), 2] = .ok 2 ∧
    applyNormalization true "minmax" [(0:ℚ), 2] 0 = .ok [0, 1] := by
  refine ⟨by decide, by decide, ?_⟩
  have h := (minmax_normalization_spec [(0:ℚ), 2] 0 0 2 (by decide) (by decide)).1
  rw [h]
  norm_num

/-- C5 counterexample: at resolution 10000, flank 100000 and viewpoint
position 0 the fixed-center window is clamped at the chromosome start and
spans 10 bins, not 2 * (flank // resolution) = 20, refuting the claim
that the window always spans exactly 2 * (flank // resolution) bins for
any resolution, flank and viewpoint position. -/
theorem fixed_center_bin_count_cex :
    fixedCenterWindow 0 10000 100000 = (0, 100000) ∧
    windowBinCount 0 100000 10000 = 10 ∧
    2 * pyDiv 100000 10000 = 20 := by decide

/-- C5 (amended): when the resolution divides the flank, the flank is
non-negative and the window is not clamped at the chromosome start
(flank at most the snapped bin start), the fixed-center window spans
exactly 2 * (flank // resolution) bins; moreover the window depends only
on the viewpoint's bin, not on where the viewpoint falls within it
(extract.py lines 172-175). -/
theorem fixed_center_window_spec (start res flank : Int) (hres : 0 < res)
    (hdvd : res ∣ flank) (hflank : 0 ≤ flank)
    (hroom : flank ≤ pyDiv start res * res) :
    windowBinCount (fixedCenterWindow start res flank).1
      (fixedCenterWindow start res flank).2 res = 2 * pyDiv flank res ∧
    fixedCenterWindow start res flank =
      fixedCenterWindow (pyDiv start res * res) res flank := by
  obtain ⟨m, hm⟩ := hdvd
  have hres0 : res ≠ 0 := ne_of_gt hres
  have hmflank : pyDiv flank res = m := by
    rw [pyDiv_eq_ediv _ hres.le, hm, Int.mul_ediv_cancel_left _ hres0]
  have hm0 : 0 ≤ m := by
    rcases le_or_lt 0 m with h | h
    · exact h
    · exfalso; nlinarith [hm ▸ hflank]
  set k := pyDiv start res with hk
  have hws : (fixedCenterWindow start res flank).1 = k * res - flank := by
    unfold fixedCenterWindow
    rw [← hk]
    exact max_eq_right (by linarith)
  have hwe : (fixedCenterWindow start res flank).2 = k * res + flank := by
    unfold fixedCenterWindow
    rw [← hk]
  constructor
  · rw [hws, hwe, hmflank]
    rcases eq_or_lt_of_le hm0 with hm0' | hmpos
    · have hf0 : flank = 0 := by rw [hm, ← hm0']; ring
      unfold windowBinCount
      rw [if_neg (by omega)]
      omega
    · have hfpos : 0 < flank := by rw [hm]; positivity
      unfold windowBinCount
      rw [if_pos (by omega)]
      have e1 : k * res - flank = (k - m) * res := by rw [hm]; ring
      have e2 : k * res + flank - 1 = (res - 1) + (k + m - 1) * res := by rw [hm]; ring
      rw [e1, e2, pyDiv_eq_ediv _ hres.le, pyDiv_eq_ediv _ hres.le,
        Int.mul_ediv_cancel _ hres0, Int.add_mul_ediv_right _ _ hres0,
        Int.ediv_eq_zero_of_lt (by omega) (by omega)]
      ring
  · have hcancel : pyDiv (k * res) res = k := by
      rw [pyDiv_eq_ediv _ hres.le, Int.mul_ediv_cancel _ hres0]
    unfold fixedCenterWindow
    rw [← hk, hcancel]

/-- Witness for the amended C5 at start 27, resolution 5, flank 10: the
window is [15, 35), spanning 4 = 2 * (10 // 5) bins. -/
theorem fixed_center_window_spec_witness :
    (0:Int) < 5 ∧ (5:Int) ∣ 10 ∧ (0:Int) ≤ 10 ∧ (10:Int) ≤ pyDiv 27 5 * 5 ∧
    (windowBinCount (fixedCenterWindow 27 5 10).1 (fixedCenterWindow 27 5 10).2 5 =
        2 * pyDiv 10 5 ∧
      fixedCenterWindow 27 5 10 = fixedCenterWindow (pyDiv 27 5 * 5) 5 10) :=
  ⟨by decide, ⟨2, by decide⟩, by decide, by decide,
    fixed_center_window_spec 27 5 10 (by decide) ⟨2, by decide⟩ (by decide) (by decide)⟩

theorem validate_mcool_files_trace (env : Env) (files : List String) :
    (validate_mcool_files env files).1.all preLoopEffect = true := by
  unfold validate_mcool_files
  exact all_bind (scanFiles_trace env files)
    (fun valid => ite_trace_all _ _ _ (by simp) (by simp))

theorem validate_mcool_files_ok (env : Env) (files : List String)
    (h : files.filter (validFileB env) ≠ []) :
    validate_mcool_files env files =
      ((scanFiles env files).1, .ok (files.filter (validFileB env))) := by
  unfold validate_mcool_files
  rcases hs : scanFiles env files with ⟨t, r⟩
  have hok := scanFiles_ok env files
  rw [hs] at hok
  simp only at hok
  subst hok
  simp [List.isEmpty_iff, h]

theorem effContains_append_right {pre t : List Effect} {x : Effect}
    (h : t.contains x = true) : (pre ++ t).contains x = true := by
  have hm : x ∈ t := by simpa using h
  simp [List.mem_append, hm]

theorem warnedFor_mono (env : Env) (pre t : List Effect) (f : String)
    (h : warnedFor env t f = true) : warnedFor env (pre ++ t) f = true := by
  unfold warnedFor at h ⊢
  split at h
  · rw [if_pos (by assumption)]
    exact effContains_append_right h
  · rw [if_neg (by assumption)]
    exact effContains_append_right h

theorem scanFiles_cons_trace (env : Env) (f : String) (rest : List String) :
    (scanFiles env (f :: rest)).1 =
      (if env.fileExists f = false then
        [.checkExists f, .warn ("Warning: File not found: " ++ f)]
      else if endsWithS f ".mcool" = false then
        [.checkExists f, .warn ("Warning: File is not a .mcool file: " ++ f)]
      else [.checkExists f]) ++ (scanFiles env rest).1 := by
  conv_lhs => rw [scanFiles]
  rcases hrec : scanFiles env rest with ⟨t, r⟩
  by_cases h1 : env.fileExists f
  · by_cases h2 : endsWithS f ".mcool"
    · cases r <;> simp [h1, h2, hrec]
    · cases r <;> simp [h1, h2, hrec]
  · cases r <;> simp [h1, hrec]

theorem scanFiles_warns (env : Env) (files : List String) :
    files.all (fun f => validFileB env f || warnedFor env (scanFiles env files).1 f) = true := by
  induction files with
  | nil => simp
  | cons f rest ih =>
      rw [List.all_cons, Bool.and_eq_true]
      constructor
      · by_cases h1 : env.fileExists f
        · by_cases h2 : endsWithS f ".mcool"
          · simp [validFileB, h1, h2]
          · rw [scanFiles_cons_trace]
            simp [warnedFor, h1, h2]
        · rw [scanFiles_cons_trace]
          simp [warnedFor, h1]
      · rw [List.all_eq_true] at ih ⊢
        intro g hg
        rcases Bool.or_eq_true_iff.mp (ih g hg) with hv | hw
        · simp [hv]
        · rw [scanFiles_cons_trace]
          simp only [Bool.or_eq_true]
          exact Or.inr (warnedFor_mono env _ _ g hw)

theorem get_promoter_coords_trace (env : Env) (genome : String)
    (c : Option String) (s e : Option Int) (g : Option String) :
    (get_promoter_coords env genome c s e g).1.all preLoopEffect = true := by
  unfold get_promoter_coords
  refine all_bind (by simp [preLoopEffect]) (fun _ => ?_)
  split
  · simp
  · rcases c with _ | ch <;> rcases s with _ | s0 <;> rcases e with _ | e0 <;> simp

theorem geneBranch_trace (env : Env) (genome : String) (gs : List String)
    (pcs : List Coord) (gm : List (Coord × String)) :
    (geneBranch env genome gs pcs gm).1.all preLoopEffect = true := by
  induction gs generalizing pcs gm with
  | nil => simp [geneBranch]
  | cons g rest ih =>
      unfold geneBranch
      exact all_bind (get_promoter_coords_trace env genome none none none (some (strip g)))
        (fun cs => ih _ _)

theorem bedBranch_trace (env : Env) (b : String) :
    (bedBranch env b).1.all preLoopEffect = true := by
  unfold bedBranch
  refine all_bind (by simp [preLoopEffect]) (fun _ => ?_)
  rcases hb : env.bedFrame b with e | rows
  · simp [hb]
  · by_cases hc : 4 ≤ 3 + ((rows.head?.map (fun r => r.extras.length)).getD 0)
    · simp [hb, hc]
    · simp [hb, hc]

theorem resolveRegions_trace (env : Env) (coords genes genome bed : Option String) :
    (resolveRegions env coords genes genome bed).1.all preLoopEffect = true := by
  unfold resolveRegions
  split
  · exact geneBranch_trace env _ _ _ _
  · split
    · rcases parse_coords_loose (sval coords) with _ | ⟨⟨ch, a, b⟩⟩ <;> simp
    · split
      · exact bedBranch_trace env _
      · simp

theorem processRegion_trace (env : Env) (p : Params) (gm : List (Coord × String))
    (mcool : String) (res : Int) (c : Coord) :
    (processRegion env p gm mcool res c).1.all (loopEffectOk [mcool]) = true := by
  unfold processRegion
  refine all_bind (by simp [loopEffectOk]) (fun _ => ?_)
  rcases hf : env.fetch mcool res p.balance c.1
      (queryWindow p.use_fixed_center c.2.1 c.2.2 res p.flank).1
      (queryWindow p.use_fixed_center c.2.1 c.2.2 res p.flank).2 with e | raw
  · simp [hf]
  · simp only [hf]
    rcases hr : npRow (nanToNum raw)
        (rowIndex p.use_fixed_center c.2.1
          (queryWindow p.use_fixed_center c.2.1 c.2.2 res p.flank).1 res p.flank) with e | rv
    · simp [hr]
    · simp only [hr]
      rcases hn : applyNormalization p.scale p.normalization_method rv
          (rowIndex p.use_fixed_center c.2.1
            (queryWindow p.use_fixed_center c.2.1 c.2.2 res p.flank).1 res p.flank) with e | vals
      · simp [hn]
      · simp [hn]

theorem innerLoop_trace (env : Env) (p : Params) (gm : List (Coord × String))
    (mcool : String) (res : Int) (pcs : List Coord) :
    (innerLoop env p gm mcool res pcs).1.all (loopEffectOk [mcool]) = true := by
  induction pcs with
  | nil => simp [innerLoop]
  | cons c rest ih =>
      unfold innerLoop
      refine all_bind (processRegion_trace env p gm mcool res c) (fun row => ?_)
      exact all_bind ih (fun rows => by simp)

theorem wrapFileRes_trace (mcool : String) (res : Int) (x : EffM (List ResultRow)) :
    (wrapFileRes mcool res x).1 = x.1 := by
  rcases x with ⟨t, r⟩
  cases r <;> rfl

theorem loopRes_trace (env : Env) (p : Params) (gm : List (Coord × String))
    (pcs : List Coord) (mcool : String) (rss : List Int) :
    (loopRes env p gm pcs mcool rss).1.all (loopEffectOk [mcool]) = true := by
  induction rss with
  | nil => simp [loopRes]
  | cons res rest ih =>
      unfold loopRes
      refine all_bind ?_ (fun rows => all_bind ih (fun more => by simp))
      rw [show (wrapFileRes mcool res (innerLoop env p gm mcool res pcs)).1 =
          (innerLoop env p gm mcool res pcs).1 from wrapFileRes_trace mcool res _]
      exact innerLoop_trace env p gm mcool res pcs

theorem loopEffectOk_mono {fs1 fs2 : List String} (hsub : ∀ x, x ∈ fs1 → x ∈ fs2)
    (e : Effect) (h : loopEffectOk fs1 e = true) : loopEffectOk fs2 e = true := by
  cases e <;> simp_all [loopEffectOk]

theorem loopFiles_trace (env : Env) (p : Params) (gm : List (Coord × String))
    (pcs : List Coord) (files : List String) :
    (loopFiles env p gm pcs files).1.all (loopEffectOk files) = true := by
  induction files with
  | nil => simp [loopFiles]
  | cons mcool rest ih =>
      unfold loopFiles
      refine all_bind ?_ (fun rows => ?_)
      · refine all_implies (loopRes_trace env p gm pcs mcool p.resolutions) ?_
        exact loopEffectOk_mono (by intro x hx; simp_all)
      · refine all_bind ?_ (fun more => by simp)
        refine all_implies ih ?_
        exact loopEffectOk_mono (by intro x hx; simp_all)

theorem writeOutput_err {env : Env} {output : String} {results : List ResultRow}
    {flank : Int} {e : PyError} (h : (writeOutput env output results flank).2 = .error e) :
    (writeOutput env output results flank).1 = [] := by
  unfold writeOutput at h ⊢
  rcases hw : env.writeErr output with _ | e0
  · simp [hw] at h
  · simp [hw]

theorem writeOutput_ok (env : Env) (output : String) (results : List ResultRow)
    (flank : Int) (h : env.writeErr output = none) :
    writeOutput env output results flank =
      ([.write output (assembleHeader results flank) results], .ok ()) := by
  unfold writeOutput
  rw [h]

theorem wrapUnexpected_trace {α : Type} (x : EffM α) : (wrapUnexpected x).1 = x.1 := by
  rcases x with ⟨t, r⟩
  cases r with
  | error e =>
      by_cases hv : e.isV4C
      · simp [wrapUnexpected, hv]
      · simp [wrapUnexpected, hv]
  | ok a => rfl

theorem wrapUnexpected_ok {α : Type} (x : EffM α) (a : α)
    (h : (wrapUnexpected x).2 = .ok a) : x.2 = .ok a := by
  rcases x with ⟨t, r⟩
  cases r with
  | error e =>
      by_cases hv : e.isV4C
      · simp [wrapUnexpected, hv] at h
      · simp [wrapUnexpected, hv] at h
  | ok b => simpa [wrapUnexpected] using h

theorem wrapUnexpected_err {α : Type} (x : EffM α) (e : PyError)
    (h : (wrapUnexpected x).2 = .error e) : ∃ e0, x.2 = .error e0 := by
  rcases x with ⟨t, r⟩
  cases r with
  | error e0 => exact ⟨e0, rfl⟩
  | ok b => simp [wrapUnexpected] at h


theorem preLoop_noWrite : ∀ e, preLoopEffect e = true → (!e.isWrite) = true := by
  intro e
  cases e <;> simp [preLoopEffect, Effect.isWrite]

theorem loopOk_noWrite (files : List String) :
    ∀ e, loopEffectOk files e = true → (!e.isWrite) = true := by
  intro e
  cases e <;> simp [loopEffectOk, Effect.isWrite]

theorem noWriteB_append (a b : List Effect) :
    noWriteB (a ++ b) = (noWriteB a && noWriteB b) := by
  simp [noWriteB, List.all_append]

theorem no_write_wrapUnexpected {x : EffM Unit}
    (hx : ∀ e0, x.2 = Except.error e0 → noWriteB x.1 = true) :
    ∀ t e, wrapUnexpected x = (t, Except.error e) → noWriteB t = true := by
  intro t e h
  have h1 : x.1 = t := by rw [← wrapUnexpected_trace x, h]
  obtain ⟨e0, he0⟩ := wrapUnexpected_err x e (by rw [h])
  rw [← h1]
  exact hx e0 he0

/-- C6: if extract_v4c fails at any point (validation, file filtering,
region resolution, any per-(file, resolution, region) fetch or
normalization failure, or the write itself), its effect trace contains no
write of the output table: serialization happens only after all rows are
computed (extract.py lines 163-241). -/
theorem no_write_on_error (env : Env) (p : Params) (t : List Effect) (e : PyError)
    (h : extract_v4c env p = (t, .error e)) : noWriteB t = true := by
  unfold extract_v4c at h
  refine no_write_wrapUnexpected ?_ t e h
  intro e0 h0
  have hv1 := validate_inputs_trace env p.mcool_files p.resolutions p.coords p.genes
    p.genome p.bed_file p.normalization_method
  rcases h1 : validate_inputs env p.mcool_files p.resolutions p.coords p.genes
      p.genome p.bed_file p.normalization_method with ⟨t1, r1⟩
  rw [h1] at h0 hv1
  have hw1 : noWriteB t1 = true := all_implies hv1 preLoop_noWrite
  cases r1 with
  | error e1 => simpa [noWriteB] using hw1
  | ok u1 =>
      simp only [EffM.bind_ok] at h0 ⊢
      rw [noWriteB_append, Bool.and_eq_true]
      refine ⟨hw1, ?_⟩
      have hv2 := validate_mcool_files_trace env p.mcool_files
      rcases h2 : validate_mcool_files env p.mcool_files with ⟨t2, r2⟩
      rw [h2] at h0 hv2
      have hw2 : noWriteB t2 = true := all_implies hv2 preLoop_noWrite
      cases r2 with
      | error e2 => simpa [noWriteB] using hw2
      | ok vm =>
          simp only [EffM.bind_ok] at h0 ⊢
          rw [noWriteB_append, Bool.and_eq_true]
          refine ⟨hw2, ?_⟩
          by_cases hem : vm.isEmpty
          · simp [hem, noWriteB] at h0 ⊢
          · simp only [hem, if_neg Bool.false_ne_true, EffM.pure_def, EffM.bind_ok,
              List.nil_append] at h0 ⊢
            have hv4 := resolveRegions_trace env p.coords p.genes p.genome p.bed_file
            rcases h4 : resolveRegions env p.coords p.genes p.genome p.bed_file with ⟨t4, r4⟩
            rw [h4] at h0 hv4
            have hw4 : noWriteB t4 = true := all_implies hv4 preLoop_noWrite
            cases r4 with
            | error e4 => simpa [noWriteB] using hw4
            | ok rg =>
                simp only [EffM.bind_ok] at h0 ⊢
                rw [noWriteB_append, Bool.and_eq_true]
                refine ⟨hw4, ?_⟩
                have hv5 := loopFiles_trace env p rg.2 rg.1 vm
                rcases h5 : loopFiles env p rg.2 rg.1 vm with ⟨t5, r5⟩
                rw [h5] at h0 hv5
                have hw5 : noWriteB t5 = true := all_implies hv5 (loopOk_noWrite vm)
                cases r5 with
                | error e5 => simpa [noWriteB] using hw5
                | ok results =>
                    simp only [EffM.bind_ok] at h0 ⊢
                    rw [noWriteB_append, Bool.and_eq_true]
                    refine ⟨hw5, ?_⟩
                    have hwe : (writeOutput env p.output results p.flank).1 = [] :=
                      writeOutput_err h0
                    rw [hwe]
                    rfl


/-- C8: for every truthy coordinates string that is malformed (missing
separator or non-numeric positions, strict parse fails) or has start at
least end, extract_v4c fails with an Input Validation error and its
trace is empty: no file I/O of any kind happened (extract.py lines
58-66). -/
theorem invalid_coords_validation (env : Env) (p : Params)
    (hc : truthyS p.coords = true)
    (hbad : (∃ ch a b, parse_coords (sval p.coords) = some (ch, a, b) ∧ a ≥ b) ∨
      parse_coords (sval p.coords) = none) :
    (extract_v4c env p).1 = [] ∧
    errIsInputValidation (extract_v4c env p).2 = true := by
  have h := validate_inputs_bad_coords env p.mcool_files p.resolutions p.coords p.genes
    p.genome p.bed_file p.normalization_method hc hbad
  rcases hval : validate_inputs env p.mcool_files p.resolutions p.coords p.genes
      p.genome p.bed_file p.normalization_method with ⟨t, r⟩
  rw [hval] at h
  obtain ⟨ht, hr⟩ := h
  simp only at ht
  subst ht
  cases r with
  | ok a => simp [errIsInputValidation] at hr
  | error e =>
      cases e with
      | inputValidation m =>
          unfold extract_v4c
          rw [hval]
          constructor
          · rw [wrapUnexpected_trace]
            simp
          · simp [wrapUnexpected, PyError.isV4C, errIsInputValidation]
      | fileProcessing m => simp [errIsInputValidation] at hr
      | v4cBase m => simp [errIsInputValidation] at hr
      | pyRaw m => simp [errIsInputValidation] at hr

/-- Witness for C8 at coords chr17:46000000-45878152 (start above
end). -/
theorem invalid_coords_validation_witness :
    truthyS (some "chr17:46000000-45878152") = true ∧
    ((extract_v4c
        ⟨fun _ => true, fun _ => [], fun _ => .error "no bed",
          fun _ _ _ _ _ _ => .ok [], fun _ => none⟩
        ⟨["test.mcool"], [5000], some "chr17:46000000-45878152", none, none, none,
          500000, true, true, "minmax", false, "out.tsv"⟩).1 = [] ∧
      errIsInputValidation
        (extract_v4c
          ⟨fun _ => true, fun _ => [], fun _ => .error "no bed",
            fun _ _ _ _ _ _ => .ok [], fun _ => none⟩
          ⟨["test.mcool"], [5000], some "chr17:46000000-45878152", none, none, none,
            500000, true, true, "minmax", false, "out.tsv"⟩).2 = true) :=
  ⟨by decide, invalid_coords_validation _ _ (by decide)
    (Or.inl ⟨"chr17", 46000000, 45878152, by decide, by decide⟩)⟩

/-- Witness for C6: a failing call (empty file list) whose trace is
empty, hence write-free. -/
theorem no_write_on_error_witness :
    extract_v4c
      ⟨fun _ => true, fun _ => [], fun _ => .error "no bed",
        fun _ _ _ _ _ _ => .ok [], fun _ => none⟩
      ⟨[], [5000], some "chr1:1-2", none, none, none,
        500000, true, true, "minmax", false, "out.tsv"⟩ =
      ([], .error (.inputValidation "No mcool files provided")) ∧
    noWriteB [] = true :=
  ⟨by decide,
    no_write_on_error
      ⟨fun _ => true, fun _ => [], fun _ => .error "no bed",
        fun _ _ _ _ _ _ => .ok [], fun _ => none⟩
      ⟨[], [5000], some "chr1:1-2", none, none, none,
        500000, true, true, "minmax", false, "out.tsv"⟩
      [] (.inputValidation "No mcool files provided") (by decide)⟩

/-- C7: evaluating extract_v4c at the failing input of the repo test
test_extract_v4c_missing_files (a single non-existent mcool file): the
bare ValueError of validate_mcool_files is wrapped by the outer handler
into the base V4CError with message Unexpected error in extract_v4c: No
valid .mcool files found - not the FileProcessingError the test and the
spec expect, and the message does not name the missing file; the
FileProcessingError guard at extract.py lines 119-120 is unreachable. No
output is written. -/
theorem missing_file_generic_error :
    extract_v4c
      ⟨fun _ => false, fun _ => [], fun _ => .error "no bed",
        fun _ _ _ _ _ _ => .ok [], fun _ => none⟩
      ⟨["nonexistent.mcool"], [5000], some "chr17:45878152-46000000", none, none, none,
        500000, true, true, "minmax", false, "out.tsv"⟩ =
      ([.checkExists "nonexistent.mcool",
        .warn "Warning: File not found: nonexistent.mcool"],
       .error (.v4cBase "Unexpected error in extract_v4c: No valid .mcool files found")) ∧
    noWriteB [.checkExists "nonexistent.mcool",
      .warn "Warning: File not found: nonexistent.mcool"] = true := by
  constructor
  · decide
  · decide

theorem processRegion_ok_fields {env : Env} {p : Params} {gm : List (Coord × String)}
    {mcool : String} {res : Int} {c : Coord} {t : List Effect} {row : ResultRow}
    (h : processRegion env p gm mcool res c = (t, .ok row)) :
    row.mcool = mcool ∧ row.res = res ∧
    row.chrom = c.1 ∧ row.start = c.2.1 ∧ row.stop = c.2.2 := by
  unfold processRegion at h
  rcases hf : env.fetch mcool res p.balance c.1
      (queryWindow p.use_fixed_center c.2.1 c.2.2 res p.flank).1
      (queryWindow p.use_fixed_center c.2.1 c.2.2 res p.flank).2 with e | raw
  · simp [hf] at h
  · simp only [hf] at h
    rcases hr : npRow (nanToNum raw)
        (rowIndex p.use_fixed_center c.2.1
          (queryWindow p.use_fixed_center c.2.1 c.2.2 res p.flank).1 res p.flank) with e | rv
    · simp [hr] at h
    · simp only [hr] at h
      rcases hn : applyNormalization p.scale p.normalization_method rv
          (rowIndex p.use_fixed_center c.2.1
            (queryWindow p.use_fixed_center c.2.1 c.2.2 res p.flank).1 res p.flank) with e | vals
      · simp [hn] at h
      · simp only [hn, emit_def, EffM.bind_ok, EffM.pure_def, Prod.mk.injEq,
          Except.ok.injEq, List.append_nil] at h
        obtain ⟨h1, h2⟩ := h
        subst h2
        simp

theorem innerLoop_ok_spec {env : Env} {p : Params} {gm : List (Coord × String)}
    {mcool : String} {res : Int} :
    ∀ {pcs : List Coord} {t : List Effect} {rows : List ResultRow},
    innerLoop env p gm mcool res pcs = (t, .ok rows) →
    rows.length = pcs.length ∧ ∀ row ∈ rows, ∃ c ∈ pcs,
      row.mcool = mcool ∧ row.res = res ∧
      row.chrom = c.1 ∧ row.start = c.2.1 ∧ row.stop = c.2.2 := by
  intro pcs
  induction pcs with
  | nil =>
      intro t rows h
      simp [innerLoop, EffM.pure_def] at h
      obtain ⟨-, h2⟩ := h
      subst h2
      simp
  | cons c rest ih =>
      intro t rows h
      unfold innerLoop at h
      rcases hp : processRegion env p gm mcool res c with ⟨tp, rp⟩
      rw [hp] at h
      cases rp with
      | error e => simp at h
      | ok row =>
          simp only [EffM.bind_ok] at h
          rcases hi : innerLoop env p gm mcool res rest with ⟨ti, ri⟩
          rw [hi] at h
          cases ri with
          | error e => simp at h
          | ok rows0 =>
              simp only [EffM.bind_ok, EffM.pure_def, Prod.mk.injEq] at h
              obtain ⟨-, h2⟩ := h
              cases h2
              obtain ⟨hl, hf⟩ := ih hi
              obtain ⟨hm, hr, hc, hs, he⟩ := processRegion_ok_fields hp
              constructor
              · simp [hl]
              · intro r hrmem
                rcases List.mem_cons.mp hrmem with rfl | hmem
                · exact ⟨c, List.mem_cons_self c rest, hm, hr, hc, hs, he⟩
                · obtain ⟨c0, hc0, hrest⟩ := hf r hmem
                  exact ⟨c0, List.mem_cons_of_mem c hc0, hrest⟩

theorem wrapFileRes_ok {mcool : String} {res : Int} {x : EffM (List ResultRow)}
    {t : List Effect} {rows : List ResultRow}
    (h : wrapFileRes mcool res x = (t, .ok rows)) : x = (t, .ok rows) := by
  rcases x with ⟨t0, r0⟩
  cases r0 with
  | error e => simp [wrapFileRes] at h
  | ok rows0 => simpa [wrapFileRes] using h

theorem loopRes_ok_spec {env : Env} {p : Params} {gm : List (Coord × String)}
    {pcs : List Coord} {mcool : String} :
    ∀ {rss : List Int} {t : List Effect} {rows : List ResultRow},
    loopRes env p gm pcs mcool rss = (t, .ok rows) →
    rows.length = rss.length * pcs.length ∧ ∀ row ∈ rows, ∃ c ∈ pcs,
      row.mcool = mcool ∧
      row.chrom = c.1 ∧ row.start = c.2.1 ∧ row.stop = c.2.2 := by
  intro rss
  induction rss with
  | nil =>
      intro t rows h
      simp [loopRes, EffM.pure_def] at h
      obtain ⟨-, h2⟩ := h
      subst h2
      simp
  | cons res rest ih =>
      intro t rows h
      unfold loopRes at h
      rcases hw : wrapFileRes mcool res (innerLoop env p gm mcool res pcs) with ⟨tw, rw0⟩
      rw [hw] at h
      cases rw0 with
      | error e => simp at h
      | ok rows1 =>
          simp only [EffM.bind_ok] at h
          rcases hl : loopRes env p gm pcs mcool rest with ⟨tl, rl⟩
          rw [hl] at h
          cases rl with
          | error e => simp at h
          | ok rows2 =>
              simp only [EffM.bind_ok, EffM.pure_def, Prod.mk.injEq] at h
              obtain ⟨-, h2⟩ := h
              cases h2
              obtain ⟨hl1, hf1⟩ := innerLoop_ok_spec (wrapFileRes_ok hw)
              obtain ⟨hl2, hf2⟩ := ih hl
              constructor
              · simp [hl1, hl2, Nat.succ_mul, Nat.add_comm]
              · intro r hrmem
                rcases List.mem_append.mp hrmem with hmem | hmem
                · obtain ⟨c0, hc0, hm, -, hrest⟩ := hf1 r hmem
                  exact ⟨c0, hc0, hm, hrest⟩
                · exact hf2 r hmem

theorem loopFiles_ok_spec {env : Env} {p : Params} {gm : List (Coord × String)}
    {pcs : List Coord} :
    ∀ {files : List String} {t : List Effect} {rows : List ResultRow},
    loopFiles env p gm pcs files = (t, .ok rows) →
    rows.length = files.length * p.resolutions.length * pcs.length ∧
    ∀ row ∈ rows, ∃ c ∈ pcs,
      row.chrom = c.1 ∧ row.start = c.2.1 ∧ row.stop = c.2.2 := by
  intro files
  induction files with
  | nil =>
      intro t rows h
      simp [loopFiles, EffM.pure_def] at h
      obtain ⟨-, h2⟩ := h
      subst h2
      simp
  | cons mcool rest ih =>
      intro t rows h
      unfold loopFiles at h
      rcases hr1 : loopRes env p gm pcs mcool p.resolutions with ⟨t1, r1⟩
      rw [hr1] at h
      cases r1 with
      | error e => simp at h
      | ok rows1 =>
          simp only [EffM.bind_ok] at h
          rcases hr2 : loopFiles env p gm pcs rest with ⟨t2, r2⟩
          rw [hr2] at h
          cases r2 with
          | error e => simp at h
          | ok rows2 =>
              simp only [EffM.bind_ok, EffM.pure_def, Prod.mk.injEq] at h
              obtain ⟨-, h2⟩ := h
              cases h2
              obtain ⟨hl1, hf1⟩ := loopRes_ok_spec hr1
              obtain ⟨hl2, hf2⟩ := ih hr2
              constructor
              · simp [hl1, hl2, Nat.succ_mul, Nat.add_mul, Nat.add_comm]
              · intro r hrmem
                rcases List.mem_append.mp hrmem with hmem | hmem
                · obtain ⟨c0, hc0, -, hrest⟩ := hf1 r hmem
                  exact ⟨c0, hc0, hrest⟩
                · exact hf2 r hmem


theorem preLoop_fetch (files : List String) :
    ∀ e, preLoopEffect e = true →
      (match e with
        | .fetchMatrix f _ _ _ _ _ => files.contains f
        | _ => true) = true := by
  intro e
  cases e <;> simp [preLoopEffect]

theorem loopOk_fetch (files : List String) :
    ∀ e, loopEffectOk files e = true →
      (match e with
        | .fetchMatrix f _ _ _ _ _ => files.contains f
        | _ => true) = true := by
  intro e
  cases e <;> simp [loopEffectOk]

theorem writeOutput_fetch (env : Env) (out : String) (results : List ResultRow)
    (flank : Int) (files : List String) :
    (writeOutput env out results flank).1.all
      (fun e => match e with
        | .fetchMatrix f _ _ _ _ _ => files.contains f
        | _ => true) = true := by
  unfold writeOutput
  rcases hw : env.writeErr out with _ | e0 <;> simp [hw]

/-- C9: when at least one listed file exists and ends in .mcool,
validate_mcool_files succeeds with exactly the surviving files (missing
files and non-.mcool files are silently dropped), a console warning was
printed for every dropped file, and every matrix fetch of the whole
extract_v4c call names only surviving files (utils.py lines 45-70,
extract.py lines 117-120). -/
theorem invalid_files_skipped (env : Env) (p : Params)
    (hone : p.mcool_files.filter (validFileB env) ≠ []) :
    (validate_mcool_files env p.mcool_files).2 =
      .ok (p.mcool_files.filter (validFileB env)) ∧
    p.mcool_files.all (fun f => validFileB env f ||
      warnedFor env (validate_mcool_files env p.mcool_files).1 f) = true ∧
    fetchOnlyFrom (p.mcool_files.filter (validFileB env)) (extract_v4c env p).1 = true := by
  have hok := validate_mcool_files_ok env p.mcool_files hone
  refine ⟨by rw [hok], ?_, ?_⟩
  · rw [hok]
    exact scanFiles_warns env p.mcool_files
  · unfold extract_v4c
    rw [wrapUnexpected_trace]
    unfold fetchOnlyFrom
    refine all_bind ?_ (fun _ => ?_)
    · exact all_implies (validate_inputs_trace env p.mcool_files p.resolutions p.coords
        p.genes p.genome p.bed_file p.normalization_method)
        (preLoop_fetch (p.mcool_files.filter (validFileB env)))
    rw [hok]
    simp only [EffM.bind_ok]
    rw [List.all_append, Bool.and_eq_true]
    constructor
    · have := scanFiles_trace env p.mcool_files
      exact all_implies this (preLoop_fetch (p.mcool_files.filter (validFileB env)))
    have hne : (p.mcool_files.filter (validFileB env)).isEmpty = false := by
      simp [List.isEmpty_iff, hone]
    simp only [hne, if_neg Bool.false_ne_true, EffM.pure_def, EffM.bind_ok, List.nil_append]
    refine all_bind ?_ (fun rg => ?_)
    · exact all_implies (resolveRegions_trace env p.coords p.genes p.genome p.bed_file)
        (preLoop_fetch (p.mcool_files.filter (validFileB env)))
    refine all_bind ?_ (fun results => ?_)
    · exact all_implies (loopFiles_trace env p rg.2 rg.1 (p.mcool_files.filter (validFileB env)))
        (loopOk_fetch (p.mcool_files.filter (validFileB env)))
    · exact writeOutput_fetch env p.output results p.flank _


theorem writtenTables_append (a b : List Effect) :
    writtenTables (a ++ b) = writtenTables a ++ writtenTables b := by
  induction a with
  | nil => rfl
  | cons e rest ih => cases e <;> simp [writtenTables, ih]

theorem writtenTables_nil_of_noWrite {t : List Effect} (h : noWriteB t = true) :
    writtenTables t = [] := by
  induction t with
  | nil => rfl
  | cons e rest ih =>
      rw [noWriteB, List.all_cons, Bool.and_eq_true] at h
      obtain ⟨h1, h2⟩ := h
      cases e <;> simp_all [writtenTables, Effect.isWrite, noWriteB]

theorem validate_mcool_files_val {env : Env} {files vm : List String}
    {t : List Effect}
    (h : validate_mcool_files env files = (t, .ok vm)) :
    vm = files.filter (validFileB env) := by
  unfold validate_mcool_files at h
  rcases hs : scanFiles env files with ⟨t0, r0⟩
  have hok := scanFiles_ok env files
  rw [hs] at hok h
  simp only at hok
  subst hok
  simp only [EffM.bind_ok, Prod.mk.injEq] at h
  by_cases he : (files.filter (validFileB env)).isEmpty = true
  · rw [if_pos he] at h
    simp at h
  · rw [if_neg he] at h
    have h2 := h.2
    simp only [EffM.pure_def, Except.ok.injEq] at h2
    exact h2.symm

theorem resolveRegions_coords_genome (env : Env)
    (coords genes genome bed : Option String) (ch : String) (a b : Int)
    (h1 : (truthyS genes && truthyS genome) = false)
    (h2 : (truthyS genome && truthyS coords) = true)
    (hp : parse_coords_loose (sval coords) = some (ch, a, b)) :
    resolveRegions env coords genes genome bed =
      ([], .ok ([(ch, pyDiv (a + b) 2, pyDiv (a + b) 2)], [])) := by
  unfold resolveRegions
  simp [h1, h2, hp]


/-- C1 (amended): a coordinates string supplied together with a genome
build (and no gene list) resolves to the single point region at the
interval midpoint (start+end)//2, and a successful extraction writes
exactly one output row per (valid file, resolution), each row carrying
that chromosome and midpoint as its start and end (extract.py lines
134-138 and 163-241). -/
theorem coords_midpoint_rows (env : Env) (p : Params) (ch : String) (a b : Int)
    (h1 : (truthyS p.genes && truthyS p.genome) = false)
    (h2 : (truthyS p.genome && truthyS p.coords) = true)
    (hp : parse_coords_loose (sval p.coords) = some (ch, a, b))
    (hok : (extract_v4c env p).2 = .ok ()) :
    ((writtenTables (extract_v4c env p).1).map (fun w => w.2.2.length)) =
      [(p.mcool_files.filter (validFileB env)).length * p.resolutions.length] ∧
    (writtenTables (extract_v4c env p).1).all
      (fun w => w.2.2.all (fun row =>
        row.chrom == ch && row.start == pyDiv (a + b) 2 && row.stop == pyDiv (a + b) 2)) = true := by
  unfold extract_v4c at hok ⊢
  rw [wrapUnexpected_trace]
  replace hok := wrapUnexpected_ok _ _ hok
  have hv1 := validate_inputs_trace env p.mcool_files p.resolutions p.coords p.genes
    p.genome p.bed_file p.normalization_method
  rcases hval : validate_inputs env p.mcool_files p.resolutions p.coords p.genes
      p.genome p.bed_file p.normalization_method with ⟨t1, r1⟩
  rw [hval] at hok hv1
  cases r1 with
  | error e1 => simp at hok
  | ok u1 =>
      simp only [EffM.bind_ok] at hok ⊢
      have hv2 := validate_mcool_files_trace env p.mcool_files
      rcases hvm : validate_mcool_files env p.mcool_files with ⟨t2, r2⟩
      rw [hvm] at hok hv2
      cases r2 with
      | error e2 => simp at hok
      | ok vm =>
          have hvmval : vm = p.mcool_files.filter (validFileB env) :=
            validate_mcool_files_val hvm
          simp only [EffM.bind_ok] at hok ⊢
          by_cases hem : vm.isEmpty = true
          · rw [if_pos hem] at hok ⊢
            simp at hok
          · rw [if_neg hem] at hok ⊢
            simp only [EffM.pure_def, EffM.bind_ok, List.nil_append] at hok ⊢
            have hres := resolveRegions_coords_genome env p.coords p.genes p.genome
              p.bed_file ch a b h1 h2 hp
            rw [hres] at hok ⊢
            simp only [EffM.bind_ok, List.nil_append] at hok ⊢
            rcases hloop : loopFiles env p ([] : List (Coord × String))
                [(ch, pyDiv (a + b) 2, pyDiv (a + b) 2)] vm with ⟨t5, r5⟩
            rw [hloop] at hok
            have hv5 := loopFiles_trace env p ([] : List (Coord × String))
              [(ch, pyDiv (a + b) 2, pyDiv (a + b) 2)] vm
            rw [hloop] at hv5
            cases r5 with
            | error e5 => simp at hok
            | ok results =>
                simp only [EffM.bind_ok] at hok ⊢
                rcases hw : env.writeErr p.output with _ | e0
                · rw [writeOutput_ok env p.output results p.flank hw] at hok ⊢
                  obtain ⟨hlen, hfields⟩ := loopFiles_ok_spec hloop
                  have hnw1 : writtenTables t1 = [] :=
                    writtenTables_nil_of_noWrite (all_implies hv1 preLoop_noWrite)
                  have hnw2 : writtenTables t2 = [] :=
                    writtenTables_nil_of_noWrite (all_implies hv2 preLoop_noWrite)
                  have hnw5 : writtenTables t5 = [] :=
                    writtenTables_nil_of_noWrite (all_implies hv5 (loopOk_noWrite vm))
                  rw [writtenTables_append, writtenTables_append, writtenTables_append,
                    hnw1, hnw2, hnw5]
                  simp only [List.nil_append, List.append_nil]
                  constructor
                  · simp only [writtenTables, List.map_cons, List.map_nil]
                    rw [hlen, hvmval]
                    simp
                  · simp only [writtenTables, List.all_cons, List.all_nil, Bool.and_true]
                    rw [List.all_eq_true]
                    intro row hrow
                    obtain ⟨c0, hc0, hch, hst, hsp⟩ := hfields row hrow
                    simp only [List.mem_singleton] at hc0
                    subst hc0
                    simp [hch, hst, hsp]
                · unfold writeOutput at hok
                  rw [hw] at hok
                  simp at hok


/-- Witness for the amended C1: a concrete successful run producing one
row with start = end = 1 for coords c:0-2. -/
theorem coords_midpoint_rows_witness :
    ((extract_v4c envOkOne pCoords).2 = .ok ()) ∧
    (((writtenTables (extract_v4c envOkOne pCoords).1).map (fun w => w.2.2.length)) =
      [(pCoords.mcool_files.filter (validFileB envOkOne)).length * pCoords.resolutions.length] ∧
    (writtenTables (extract_v4c envOkOne pCoords).1).all
      (fun w => w.2.2.all (fun row =>
        row.chrom == "c" && row.start == pyDiv (0 + 2) 2 && row.stop == pyDiv (0 + 2) 2)) = true) :=
  ⟨by decide, coords_midpoint_rows envOkOne pCoords "c" 0 2 (by decide) (by decide)
    (by decide) (by decide)⟩

/-- C1 counterexample: a valid coordinates string with start below end
supplied WITHOUT a genome build (and no genes, no BED file) does not
resolve to a point region: extract_v4c raises InputValidationError
(extract.py lines 134-161, the midpoint branch requires genome and
coords) and writes nothing. -/
theorem coords_without_genome_rejected :
    extract_v4c envOkOne { pCoords with genome := none } =
      ([.checkExists "a.mcool"],
       .error (.inputValidation "Either --coords, --genes with --genome, or --bed must be specified.")) ∧
    noWriteB [.checkExists "a.mcool"] = true := by
  constructor
  · decide
  · decide

/-- C2 (amended): a valid coordinates string supplied together with a
genome build (and no gene list) is NOT expanded to overlapping
promoters: the resolver returns the single midpoint point region and
performs no effect at all, in particular it never reads the promoter
table (extract.py lines 134-138). -/
theorem coords_with_genome_no_promoter_lookup (env : Env)
    (coords genes genome bed : Option String) (ch : String) (a b : Int)
    (h1 : (truthyS genes && truthyS genome) = false)
    (h2 : (truthyS genome && truthyS coords) = true)
    (hp : parse_coords_loose (sval coords) = some (ch, a, b)) :
    resolveRegions env coords genes genome bed =
      ([], .ok ([(ch, pyDiv (a + b) 2, pyDiv (a + b) 2)], [])) :=
  resolveRegions_coords_genome env coords genes genome bed ch a b h1 h2 hp

/-- Witness for the amended C2 at coords chr1:100-200 with genome hg38
over an environment whose promoter table is non-empty. -/
theorem coords_with_genome_no_promoter_lookup_witness :
    (truthyS (none : Option String) && truthyS (some "hg38")) = false ∧
    (truthyS (some "hg38") && truthyS (some "chr1:100-200")) = true ∧
    parse_coords_loose (sval (some "chr1:100-200")) = some ("chr1", 100, 200) ∧
    resolveRegions envOkOne (some "chr1:100-200") none (some "hg38") none =
      ([], .ok ([("chr1", pyDiv (100 + 200) 2, pyDiv (100 + 200) 2)], [])) :=
  ⟨by decide, by decide, by decide,
    coords_with_genome_no_promoter_lookup envOkOne (some "chr1:100-200") none
      (some "hg38") none "chr1" 100 200 (by decide) (by decide) (by decide)⟩

/-- C2 counterexample: with coords chr1:100-200 and genome hg38, the
promoter table contains one promoter overlapping [100, 200] (namely
(chr1, 120, 180)), yet the resolver returns the single midpoint region
(chr1, 150, 150) with an empty effect trace: the claimed expansion to
overlapping promoters does not happen. -/
theorem coords_with_genome_ignores_promoters :
    resolveRegions envOkOne (some "chr1:100-200") none (some "hg38") none =
      ([], .ok ([("chr1", 150, 150)], [])) ∧
    ((envOkOne.promoters "hg38").filter
      (fun pe => pe.chrom == "chr1" && pe.start ≤ 200 && pe.stop ≥ 100)).map
        PromoterEntry.coord = [("chr1", 120, 180)] := by
  constructor
  · have h := resolveRegions_coords_genome envOkOne (some "chr1:100-200") none
      (some "hg38") none "chr1" 100 200 (by decide) (by decide) (by decide)
    rw [h]
    have h300 : pyDiv (100 + 200) 2 = (150 : Int) := by decide
    rw [h300]
  · decide

/-- C10: when the result rows have heterogeneous profile lengths such
that the genomic-coordinate names computed from the first row do not
match the DataFrame column count, the assembler falls back to the
generic names contact_0, contact_1, ... for the profile columns, and
the table is still written without error (extract.py lines 214-239). -/
theorem ragged_rows_fallback (env : Env) (first : ResultRow) (rest : List ResultRow)
    (flank : Int) (out : String)
    (hhet : (rest.all (fun r => r.values.length == first.values.length)) = false)
    (hmis : 6 + first.values.length ≠ dfNumCols (first :: rest))
    (hw : env.writeErr out = none) :
    assembleHeader (first :: rest) flank =
      metaCols ++ (List.range (dfNumCols (first :: rest) - 6)).map
        (fun i => "contact_" ++ toString i) ∧
    writeOutput env out (first :: rest) flank =
      ([.write out (assembleHeader (first :: rest) flank) (first :: rest)], .ok ()) := by
  constructor
  · simp only [assembleHeader]
    rw [if_neg ?hcond]
    case hcond =>
      intro hC
      apply hmis
      rw [← hC, List.length_append, List.length_map, List.length_range]
      simp [metaCols]
  · exact writeOutput_ok env out (first :: rest) flank hw

/-- Witness for C10 with two rows of profile lengths 1 and 2. -/
theorem ragged_rows_fallback_witness :
    (([⟨"m", 1, "c", 0, 0, "", [0, 0]⟩] : List ResultRow).all
      (fun r => r.values.length == (⟨"m", 1, "c", 0, 0, "", [(0:ℚ)]⟩ : ResultRow).values.length) = false) ∧
    (6 + (⟨"m", 1, "c", 0, 0, "", [(0:ℚ)]⟩ : ResultRow).values.length ≠
      dfNumCols [⟨"m", 1, "c", 0, 0, "", [(0:ℚ)]⟩, ⟨"m", 1, "c", 0, 0, "", [0, 0]⟩]) ∧
    (assembleHeader [⟨"m", 1, "c", 0, 0, "", [(0:ℚ)]⟩, ⟨"m", 1, "c", 0, 0, "", [0, 0]⟩] 0 =
      metaCols ++ (List.range (dfNumCols [⟨"m", 1, "c", 0, 0, "", [(0:ℚ)]⟩,
        ⟨"m", 1, "c", 0, 0, "", [0, 0]⟩] - 6)).map (fun i => "contact_" ++ toString i) ∧
    writeOutput envOkOne "o.tsv" [⟨"m", 1, "c", 0, 0, "", [(0:ℚ)]⟩,
        ⟨"m", 1, "c", 0, 0, "", [0, 0]⟩] 0 =
      ([.write "o.tsv" (assembleHeader [⟨"m", 1, "c", 0, 0, "", [(0:ℚ)]⟩,
          ⟨"m", 1, "c", 0, 0, "", [0, 0]⟩] 0)
        [⟨"m", 1, "c", 0, 0, "", [(0:ℚ)]⟩, ⟨"m", 1, "c", 0, 0, "", [0, 0]⟩]], .ok ())) :=
  ⟨by decide, by decide,
    ragged_rows_fallback envOkOne ⟨"m", 1, "c", 0, 0, "", [(0:ℚ)]⟩
      [⟨"m", 1, "c", 0, 0, "", [0, 0]⟩] 0 "o.tsv" (by decide) (by decide) rfl⟩

/-- Witness for C9 with one valid file and one missing file. -/
theorem invalid_files_skipped_witness :
    (({ pCoords with mcool_files := ["a.mcool", "nope.mcool"] } : Params).mcool_files.filter
      (validFileB envOkOne) ≠ []) ∧
    ((validate_mcool_files envOkOne
        ({ pCoords with mcool_files := ["a.mcool", "nope.mcool"] } : Params).mcool_files).2 =
      .ok (({ pCoords with mcool_files := ["a.mcool", "nope.mcool"] } : Params).mcool_files.filter
        (validFileB envOkOne)) ∧
    ({ pCoords with mcool_files := ["a.mcool", "nope.mcool"] } : Params).mcool_files.all
      (fun f => validFileB envOkOne f ||
        warnedFor envOkOne (validate_mcool_files envOkOne
          ({ pCoords with mcool_files := ["a.mcool", "nope.mcool"] } : Params).mcool_files).1 f) = true ∧
    fetchOnlyFrom
      (({ pCoords with mcool_files := ["a.mcool", "nope.mcool"] } : Params).mcool_files.filter
        (validFileB envOkOne))
      (extract_v4c envOkOne { pCoords with mcool_files := ["a.mcool", "nope.mcool"] }).1 = true) :=
  ⟨by decide,
    invalid_files_skipped envOkOne { pCoords with mcool_files := ["a.mcool", "nope.mcool"] }
      (by decide)⟩

end V4C
